import Mathlib

/-!
Shallow embedding of the pyvncreplay RFB (VNC) session-replay decoder.

Bytes are modelled as natural numbers (actual wire bytes are < 256); byte
strings and streams are `List Nat`.  A Python `IO[bytes]` stream that is
consumed sequentially is modelled by threading the list of bytes not yet
read.  Python exceptions are modelled with `Except PyErr`; an exception that
the source catches locally is handled at the corresponding point of the
embedding.  Python loops whose iteration count is bounded by the input are
translated with an explicit iteration budget (`fuel`) supplied at the call
site; the budget is always at least the number of bytes remaining plus one,
and every loop iteration of the source consumes at least one byte of input,
so the zero-budget branch (which mirrors the loop's end-of-data exit) is
never taken.
-/

/-- Python exceptions that the embedded code can raise. -/
inductive PyErr where
  | indexError
  | typeError
  | valueError
  deriving DecidableEq, Repr

/-- Big-endian interpretation of a byte string (`int.from_bytes(b, "big")`). -/
def beNat (bs : List Nat) : Nat := bs.foldl (fun a b => a * 256 + b) 0

/-- `int.from_bytes(pixel, "big" if big_endian else "little")`. -/
def intFromBytes (big : Bool) (bs : List Nat) : Nat :=
  if big then beNat bs else beNat bs.reverse

/-- Big-endian `u16` from the first two bytes. -/
def u16be (bs : List Nat) : Nat := beNat (bs.take 2)

/-- Big-endian `u32` from the first four bytes. -/
def u32be (bs : List Nat) : Nat := beNat (bs.take 4)

/-- `lib/data_structures.py BasicPixelFormat`: the first four bytes of an RFB
pixel format. -/
structure BasicPixelFormat where
  bits_per_pixel : Nat
  depth : Nat
  big_endian : Bool
  true_colour : Bool
  deriving DecidableEq, Repr

/-- `BasicPixelFormat.bytes_per_pixel`: `bits_per_pixel // 8`. -/
def BasicPixelFormat.bytes_per_pixel (pf : BasicPixelFormat) : Nat :=
  pf.bits_per_pixel / 8

/-- `BasicPixelFormat.cpixel_size`: 3 when true-colour, 32 bpp and depth at
most 24, else `bytes_per_pixel`. -/
def BasicPixelFormat.cpixel_size (pf : BasicPixelFormat) : Nat :=
  if pf.true_colour ∧ pf.bits_per_pixel = 32 ∧ pf.depth ≤ 24 then 3
  else pf.bytes_per_pixel

/-- `BasicPixelFormat.decode_cpixel`: re-expand a 3-byte compact pixel by
prepending a zero byte. -/
def BasicPixelFormat.decode_cpixel (pf : BasicPixelFormat) (cpixel : List Nat) :
    List Nat :=
  if pf.cpixel_size = 3 then 0 :: cpixel else cpixel

/-- `lib/data_structures.py PixelFormat`: full 16-byte RFB pixel format
(the trailing padding carries no information and is not stored). -/
structure PixelFormat extends BasicPixelFormat where
  red_max : Nat
  green_max : Nat
  blue_max : Nat
  red_shift : Nat
  green_shift : Nat
  blue_shift : Nat
  deriving DecidableEq, Repr

/-- `lib/data_structures.py Rectangle`: x, y, width, height (u16 fields). -/
structure Rectangle where
  x : Nat
  y : Nat
  width : Nat
  height : Nat
  deriving DecidableEq, Repr

/-- A stored cursor status (`CursorStatus`): the last pointer event's button
mask byte and coordinates. -/
structure CursorStatus where
  button_mask : Nat
  x : Nat
  y : Nat
  deriving DecidableEq, Repr

/-- A pointer event (`lib/client_events.py PointerEvent`): button mask byte
and u16 coordinates. -/
structure PointerEvent where
  button_mask : Nat
  x : Nat
  y : Nat
  deriving DecidableEq, Repr

/-- RGBA pixel value. -/
abbrev RGBA := Nat × Nat × Nat × Nat

/-- `lib/data_structures.py Framebuffer`: the fields the verified operations
touch.  `cursor_path_img` is the RGBA cursor-path image stored row major
(index `y * width + x`); the RGB screen image and the optional cursor image
are external PIL objects not modelled here. -/
structure Framebuffer where
  width : Nat
  height : Nat
  pix_fmt : PixelFormat
  cursor : Option CursorStatus
  cursor_path_img : List RGBA
  deriving Repr

/-- `lib/data_structures.py get_bpp`: the `pix_bpp` context override if set
(used for cursor pixels), else the framebuffer's bits-per-pixel. -/
def get_bpp (fb : Framebuffer) (pix_bpp : Option Nat) : Nat :=
  pix_bpp.getD fb.pix_fmt.bits_per_pixel

/-- `lib/data_structures.py get_frame_size_bytes`:
`fb.width * fb.height * bpp // 8`. -/
def get_frame_size_bytes (fb : Framebuffer) (pix_bpp : Option Nat) : Nat :=
  fb.width * fb.height * get_bpp fb pix_bpp / 8

/-- `lib/server_events.py FramebufferUpdateRaw`: the declarative field
`pixdata: bytes = field(get_frame_size_bytes)` reads exactly
`get_frame_size_bytes` bytes from the server stream.  Returns the raw pixel
bytes and the rest of the stream. -/
def framebufferUpdateRaw_unpack (fb : Framebuffer) (pix_bpp : Option Nat)
    (stream : List Nat) : List Nat × List Nat :=
  (stream.take (get_frame_size_bytes fb pix_bpp),
   stream.drop (get_frame_size_bytes fb pix_bpp))

/-- Modelled from the spec: the byte count the specification prescribes for a
RAW rectangle, `rect.width * rect.height * bytes_per_pixel` of the current
pixel format.  Used only to compare the source's behaviour against the
claimed one. -/
def rawRectBytesSpec (rect : Rectangle) (pf : PixelFormat) : Nat :=
  rect.width * rect.height * pf.bytes_per_pixel

/-! ## ZRLE decoding (`lib/encodings.py`) -/

/-- `read_cpixel`: read `cpixel_size` bytes (fewer at end of data) and
re-expand via `decode_cpixel`.  Returns the pixel bytes and the rest. -/
def read_cpixel (pf : BasicPixelFormat) (data : List Nat) :
    List Nat × List Nat :=
  (pf.decode_cpixel (data.take pf.cpixel_size), data.drop pf.cpixel_size)

/-- `get_palette`: read `palette_size` compact pixels. -/
def get_palette (pf : BasicPixelFormat) :
    Nat → List Nat → List (List Nat) × List Nat
  | 0, data => ([], data)
  | n + 1, data =>
    let p := read_cpixel pf data
    let ps := get_palette pf n p.2
    (p.1 :: ps.1, ps.2)

/-- Accumulating loop of `get_rle_length`: add each byte, stop at the first
byte below `0xFF`; `none` models the `ValueError` raised at end of data. -/
def get_rle_length_aux (length : Nat) : List Nat → Option (Nat × List Nat)
  | [] => none
  | b :: rest =>
    if b < 0xFF then some (length + b, rest)
    else get_rle_length_aux (length + b) rest

/-- `get_rle_length`: 1 plus the sum of the bytes up to and including the
first byte below `0xFF`. -/
def get_rle_length (data : List Nat) : Option (Nat × List Nat) :=
  get_rle_length_aux 1 data

/-- One byte of `iterate_bitfields`: the values
`(b >> (8 - bitfield_size - i)) & mask` for `i = 0, bitfield_size, ...` below
8 (`mask = 2^bitfield_size - 1`). -/
def fieldsOfByte (bitfield_size : Nat) (b : Nat) : List Nat :=
  (List.range (8 / bitfield_size)).map
    (fun k => (b >>> (8 - bitfield_size - bitfield_size * k)) % 2 ^ bitfield_size)

/-- State of the `iterate_bitfields` generator: not yet started, paused at a
yield (with the fields left in the current byte and the remaining bytes), or
finished (a generator that has raised `StopIteration` stays exhausted). -/
inductive GenState where
  | fresh (fob : List (List Nat))
  | running (cur : List Nat) (rest : List (List Nat))
  | dead
  deriving DecidableEq, Repr

/-- Run the generator to its first yield inside a list of byte-field lists;
`none` models `StopIteration`. -/
def genStart : List (List Nat) → Option (Nat × GenState)
  | [] => none
  | b :: rest =>
    match b with
    | [] => genStart rest
    | f :: fs => some (f, .running fs rest)

/-- Resume the generator with `skip = None` (a plain `next`): yield the next
field of the current byte, moving to the following byte when the current one
is spent. -/
def genNext : GenState → Option (Nat × GenState)
  | .fresh fob => genStart fob
  | .running [] rest => genStart rest
  | .running (f :: fs) rest => some (f, .running fs rest)
  | .dead => none

/-- Resume the generator with `send(True)`: break out of the current byte and
yield the first field of the next one.  Sending a non-`None` value into a
generator that was never started raises `TypeError`. -/
def genSend : GenState → Except PyErr (Option (Nat × GenState))
  | .fresh _ => .error .typeError
  | .running _ rest => .ok (genStart rest)
  | .dead => .ok none

/-- The `width - 1` leading `next` calls of a packed-palette row:
the joined bytes of `palette[next(iter_bitfields)]` over `range(width - 1)`.
`StopIteration` inside the generator expression surfaces as `RuntimeError`
and is caught by the source (the partial row is discarded and the generator
is left exhausted): that outcome is `none`.  An out-of-range palette index
raises an uncaught `IndexError`. -/
def packedRowHead (palette : List (List Nat)) :
    Nat → GenState → Except PyErr (Option (List Nat × GenState))
  | 0, g => .ok (some ([], g))
  | n + 1, g =>
    match genNext g with
    | none => .ok none
    | some (idx, g') =>
      match palette[idx]? with
      | none => .error .indexError
      | some pix =>
        match packedRowHead palette n g' with
        | .error e => .error e
        | .ok none => .ok none
        | .ok (some (pixs, g'')) => .ok (some (pix ++ pixs, g''))

/-- One packed-palette row: the leading `width - 1` pixels, then
`send(True)` to align to the byte boundary, whose yielded value indexes the
row's last pixel.  A `StopIteration` at the `send` is caught (the last pixel
is dropped); the row's decoded bytes and the new generator state are
returned. -/
def packedRow (palette : List (List Nat)) (width : Nat) (g : GenState) :
    Except PyErr (List Nat × GenState) :=
  match packedRowHead palette (width - 1) g with
  | .error e => .error e
  | .ok none => .ok ([], .dead)
  | .ok (some (pixs, g')) =>
    match genSend g' with
    | .error e => .error e
    | .ok none => .ok (pixs, .dead)
    | .ok (some (idx, g'')) =>
      match palette[idx]? with
      | none => .error .indexError
      | some pix => .ok (pixs ++ pix, g'')

/-- The `for _ in range(height)` loop over packed-palette rows. -/
def packedRows (palette : List (List Nat)) (width : Nat) :
    Nat → GenState → Except PyErr (List Nat)
  | 0, _ => .ok []
  | h + 1, g =>
    match packedRow palette width g with
    | .error e => .error e
    | .ok (row, g') => (packedRows palette width h g').map (row ++ ·)

/-- The plain-RLE loop (sub-encoding 128): repeat (compact pixel, run
length) pairs until `total_size` bytes are produced; a `ValueError` from
`get_rle_length` is caught and ends the loop, with the stream consumed to
its end (the failed length read ate every remaining byte).  `fuel` bounds the iteration
count; each iteration consumes at least one byte (the run length), so
`data.length + 1` is always enough. -/
def plainRLE (pf : BasicPixelFormat) (total_size : Nat) :
    Nat → List Nat → List Nat → List Nat × List Nat
  | 0, pixdata, data => (pixdata, data)
  | fuel + 1, pixdata, data =>
    if pixdata.length < total_size then
      let p := read_cpixel pf data
      match get_rle_length p.2 with
      | none => (pixdata, [])
      | some (len, d₂) =>
        plainRLE pf total_size fuel (pixdata ++ (List.replicate len p.1).flatten) d₂
    else (pixdata, data)

/-- The palette-RLE loop (sub-encodings 130-255): each byte is a single
palette index when below 128, else `index - 128` followed by a run length.
End of data breaks the loop with the stream consumed (warnings in the
source); an out-of-range
palette index raises an uncaught `IndexError`.  `fuel` as in `plainRLE`. -/
def paletteRLE (palette : List (List Nat)) (total_size : Nat) :
    Nat → List Nat → List Nat → Except PyErr (List Nat × List Nat)
  | 0, pixdata, data => .ok (pixdata, data)
  | fuel + 1, pixdata, data =>
    if pixdata.length < total_size then
      match data with
      | [] => .ok (pixdata, [])
      | idx :: d₁ =>
        if idx < 128 then
          match palette[idx]? with
          | none => .error .indexError
          | some pix => paletteRLE palette total_size fuel (pixdata ++ pix) d₁
        else
          match get_rle_length d₁ with
          | none => .ok (pixdata, [])
          | some (len, d₂) =>
            match palette[idx - 128]? with
            | none => .error .indexError
            | some pix =>
              paletteRLE palette total_size fuel
                (pixdata ++ (List.replicate len pix).flatten) d₂
    else .ok (pixdata, data)

/-- The final clamp of `decode_zrle_tile`: truncate data longer than
`total_size`, zero-pad data shorter than it. -/
def clampTo (total_size : Nat) (pixdata : List Nat) : List Nat :=
  if total_size < pixdata.length then pixdata.take total_size
  else pixdata ++ List.replicate (total_size - pixdata.length) 0

/-- `decode_zrle_tile`: decode one ZRLE tile of `size = (width, height)` from
the stream, dispatching on the sub-encoding byte; returns the decoded bytes
and the unread rest of the stream.  An empty stream returns a zero tile
immediately; all other paths are clamped to exactly
`width * height * cpixel_size` bytes. -/
def decode_zrle_tile (data : List Nat) (size : Nat × Nat)
    (pf : BasicPixelFormat) : Except PyErr (List Nat × List Nat) :=
  let width := size.1
  let height := size.2
  let cpixel_size := pf.cpixel_size
  let total_size := width * height * cpixel_size
  match data with
  | [] => .ok (List.replicate total_size 0, [])
  | subencoding :: d₀ =>
    let body : Except PyErr (List Nat × List Nat) :=
      if subencoding = 0 then
        .ok (d₀.take (width * height * cpixel_size),
             d₀.drop (width * height * cpixel_size))
      else if subencoding = 1 then
        .ok ((List.replicate (width * height) (d₀.take cpixel_size)).flatten,
             d₀.drop cpixel_size)
      else if subencoding ≤ 16 then
        let pal := get_palette pf subencoding d₀
        let bitfield_size :=
          if subencoding = 2 then 1 else if subencoding ≤ 4 then 2 else 4
        let m :=
          if subencoding = 2 then (width + 7) / 8 * height
          else if subencoding ≤ 4 then (width + 3) / 4 * height
          else (width + 1) / 2 * height
        let packed := pal.2.take m
        match packedRows pal.1 width height
            (.fresh (packed.map (fieldsOfByte bitfield_size))) with
        | .error e => .error e
        | .ok pixdata => .ok (pixdata, pal.2.drop m)
      else if subencoding ≤ 127 then
        .ok ([], d₀)
      else if subencoding = 128 then
        .ok (plainRLE pf total_size (d₀.length + 1) [] d₀)
      else if subencoding = 129 then
        .ok ([], d₀)
      else
        let pal := get_palette pf (subencoding - 128) d₀
        paletteRLE pal.1 total_size (pal.2.length + 1) [] pal.2
    body.map (fun r => (clampTo total_size r.1, r.2))

/-- Python slice assignment `buf[start:stop] = x` for `start ≤ stop`
(both indices clamp to the buffer length; the buffer length changes when
`x` is not `stop - start` long, as in the source's paste). -/
def setSlice (buf : List Nat) (start stop : Nat) (x : List Nat) : List Nat :=
  buf.take start ++ x ++ buf.drop stop

/-- The paste loop of `decode_zrle`: for each tile row, splice the row's
`tile_w * bytes_per_pixel` bytes of `tile_data` into `pixdata` at
`(tile_x + (tile_y + row) * width) * bytes_per_pixel`. -/
def pasteTile (bpp width tile_x tile_y tile_w : Nat) (tile_data : List Nat) :
    Nat → List Nat → List Nat
  | 0, pixdata => pixdata
  | row + 1, pixdata =>
    let pixdata := pasteTile bpp width tile_x tile_y tile_w tile_data row pixdata
    let start := (tile_x + (tile_y + row) * width) * bpp
    setSlice pixdata start (start + tile_w * bpp)
      ((tile_data.drop (row * tile_w * bpp)).take (tile_w * bpp))

/-- Inner `while tile_x < width` loop of `decode_zrle`.  Note that, as in the
source, `tile_w` is fixed for the whole inner loop and `tile_h` is
recomputed per tile.  `fuel` bounds the iterations; `tile_x` grows by 64
each time, so `width + 1` is always enough.  Returns the final `tile_x`,
the rest of the stream and the updated pixel buffer. -/
def zrleInner (pf : BasicPixelFormat) (width height tile_y tile_w : Nat) :
    Nat → Nat → List Nat → List Nat →
      Except PyErr (Nat × List Nat × List Nat)
  | 0, tile_x, stream, pixdata => .ok (tile_x, stream, pixdata)
  | fuel + 1, tile_x, stream, pixdata =>
    if tile_x < width then
      let tile_h := min 64 (height - tile_y)
      match decode_zrle_tile stream (tile_w, tile_h) pf with
      | .error e => .error e
      | .ok (tile_data, stream') =>
        let pixdata :=
          pasteTile pf.bytes_per_pixel width tile_x tile_y tile_w tile_data
            tile_h pixdata
        zrleInner pf width height tile_y tile_w fuel (tile_x + 64) stream' pixdata
    else .ok (tile_x, stream, pixdata)

/-- Outer `while tile_y < height` loop of `decode_zrle`.  As in the source,
`tile_x` is carried over from one tile row to the next (it is never reset)
and `tile_w` is computed once per outer iteration from the carried-over
`tile_x`; `min 64 (width - tile_x)` uses truncated subtraction where the
source computes a negative number, in which case the inner loop does not
run and `tile_w` is never used.  `fuel` as in `zrleInner` (`tile_y` grows
by 64, so `height + 1` is enough). -/
def zrleOuter (pf : BasicPixelFormat) (width height : Nat) :
    Nat → Nat → Nat → List Nat → List Nat → Except PyErr (List Nat)
  | 0, _, _, _, pixdata => .ok pixdata
  | fuel + 1, tile_x, tile_y, stream, pixdata =>
    if tile_y < height then
      let tile_w := min 64 (width - tile_x)
      match zrleInner pf width height tile_y tile_w (width + 1) tile_x
          stream pixdata with
      | .error e => .error e
      | .ok (tile_x', stream', pixdata') =>
        zrleOuter pf width height fuel tile_x' (tile_y + 64) stream' pixdata'
    else .ok pixdata

/-- `decode_zrle`: decode a ZRLE rectangle of `size = (width, height)` from
the inflated data, tile by tile, into a pixel buffer of
`width * height * bytes_per_pixel` zeroes. -/
def decode_zrle (data : List Nat) (size : Nat × Nat)
    (pf : BasicPixelFormat) : Except PyErr (List Nat) :=
  let width := size.1
  let height := size.2
  zrleOuter pf width height (height + 1) 0 0 data
    (List.replicate (width * height * pf.bytes_per_pixel) 0)

/-! ## Packet streams (`lib/packet_stream.py`) -/

/-- `PacketOrigin`: which side of the connection a packet came from. -/
inductive PacketOrigin where
  | CLIENT
  | SERVER
  deriving DecidableEq, Repr

/-- A captured packet: its timestamp and an identifier for its payload.
Capture timestamps are finite floats, whose ordering is embedded into the
integers; only order comparisons on timestamps are performed by the
source. -/
structure Pkt where
  time : Int
  pid : Nat
  deriving DecidableEq, Repr

/-- The pair of directional streams of `ClientServerPacketStream`: each
`PacketStream` is the list of packets not yet taken (its head is the
`_next` lookahead, i.e. `peek_next`). -/
structure MergedState where
  cli : List Pkt
  srv : List Pkt
  deriving DecidableEq, Repr

/-- `ClientServerPacketStream.__next__`: deliver from the client when the
server stream is exhausted and vice versa; with both pending, deliver the
client packet exactly when its time is strictly smaller, else the server
packet.  `none` models the `StopIteration` when both sides are exhausted.
The result also records the origin the source would set via
`next_client` / `next_server`. -/
def mergedNext (st : MergedState) : Option ((PacketOrigin × Pkt) × MergedState) :=
  match st.cli, st.srv with
  | [], [] => none
  | [], s :: ss => some ((.SERVER, s), ⟨[], ss⟩)
  | c :: cs, [] => some ((.CLIENT, c), ⟨cs, []⟩)
  | c :: cs, s :: ss =>
    if c.time < s.time then some ((.CLIENT, c), ⟨cs, s :: ss⟩)
    else some ((.SERVER, s), ⟨c :: cs, ss⟩)

/-- `ClientServerPacketStream.next_packet_origin`: `none` when both sides
are exhausted; one-sided when only one side pends; otherwise `SERVER`
exactly when the server's next timestamp is strictly smaller. -/
def next_packet_origin (st : MergedState) : Option PacketOrigin :=
  match st.srv.head?, st.cli.head? with
  | none, none => none
  | none, some _ => some .CLIENT
  | some _, none => some .SERVER
  | some s, some c => some (if s.time < c.time then .SERVER else .CLIENT)

/-- Iterating `__next__` until both sides are exhausted (the replay's event
loop).  `fuel` bounds the iterations; each delivery removes one packet, so
`cli.length + srv.length` is always enough. -/
def runMerge : Nat → MergedState → List (PacketOrigin × Pkt)
  | 0, _ => []
  | fuel + 1, st =>
    match mergedNext st with
    | none => []
    | some (d, st') => d :: runMerge fuel st'

/-- The full delivery sequence of a merged stream. -/
def mergeAll (st : MergedState) : List (PacketOrigin × Pkt) :=
  runMerge (st.cli.length + st.srv.length) st

/-! ## Pixel-to-RGB conversion (`lib/data_structures.py Framebuffer`) -/

/-- The per-pixel loop of `Framebuffer.decode_pixel_data`: take
`bytes_per_pixel` bytes, interpret them as an integer with the format's
endianness, extract each channel by shift and bitwise and with the channel
max, scale to 8 bits by `channel * 255 // max` (a zero channel max raises
`ZeroDivisionError`, modelled as `valueError`).  `fuel` bounds the
iterations; each consumes `bytes_per_pixel ≥ 1` bytes (the caller rejects
`bytes_per_pixel = 0`), so the data length is always enough. -/
def decodePixelLoop (pf : PixelFormat) : Nat → List Nat → Except PyErr (List Nat)
  | 0, _ => .ok []
  | fuel + 1, data =>
    match data with
    | [] => .ok []
    | d =>
      let pixel := d.take pf.bytes_per_pixel
      let pix_int := intFromBytes pf.big_endian pixel
      if pf.red_max = 0 ∨ pf.green_max = 0 ∨ pf.blue_max = 0 then .error .valueError
      else
        let red := (pix_int >>> pf.red_shift) &&& pf.red_max
        let green := (pix_int >>> pf.green_shift) &&& pf.green_max
        let blue := (pix_int >>> pf.blue_shift) &&& pf.blue_max
        let red := red * 255 / pf.red_max
        let green := green * 255 / pf.green_max
        let blue := blue * 255 / pf.blue_max
        (decodePixelLoop pf fuel (d.drop pf.bytes_per_pixel)).map
          (fun rest => red :: green :: blue :: rest)

/-- `Framebuffer.decode_pixel_data`: palette formats are rejected
(`ValueError`), as is a zero `bytes_per_pixel` (`range` with step 0 raises
`ValueError`); otherwise every `bytes_per_pixel` input bytes become one RGB
triple. -/
def decode_pixel_data (pf : PixelFormat) (pix_data : List Nat) :
    Except PyErr (List Nat) :=
  if ¬pf.true_colour then .error .valueError
  else if pf.bytes_per_pixel = 0 then .error .valueError
  else decodePixelLoop pf pix_data.length pix_data

/-! ## Cursor position updates (`lib/data_structures.py Framebuffer`) -/

/-- `Image.putpixel` on the cursor-path image: set the pixel at `(x, y)`, or
raise `IndexError` when the coordinate is outside the image. -/
def putpixel (img : List RGBA) (width height x y : Nat) (colour : RGBA) :
    Except PyErr (List RGBA) :=
  if x < width ∧ y < height then .ok (img.set (y * width + x) colour)
  else .error .indexError

/-- `Framebuffer.update_cursor_position`: store the event's button mask and
coordinates as the cursor status (creating it on the first event), mark the
cursor-path pixel red — an `IndexError` from an out-of-range coordinate is
caught and ignored — and return the cursor status handed to the
`update_cursor_position` event handler. -/
def update_cursor_position (fb : Framebuffer) (ev : PointerEvent) :
    Framebuffer × CursorStatus :=
  let c : CursorStatus :=
    match fb.cursor with
    | none => ⟨ev.button_mask, ev.x, ev.y⟩
    | some _ => ⟨ev.button_mask, ev.x, ev.y⟩
  let img :=
    match putpixel fb.cursor_path_img fb.width fb.height ev.x ev.y
        (255, 0, 0, 255) with
    | .ok i => i
    | .error _ => fb.cursor_path_img
  ({ fb with cursor := some c, cursor_path_img := img }, c)

/-! ## Handshake (`lib/rfb.py process_handshake`, packet granularity).

The handshake consumes whole packets from the two directional streams via
`next_server` / `next_client` and unpacks each load with the declarative
structures of `lib/struct/data_structures.py`.  The parse functions below
read from the head of a load and ignore trailing bytes; console printing
and the recording of IP endpoints are omitted.  The version text is decoded
as ASCII digits: `process_handshake` prints each version, which converts
the major and minor fields with `int(...)` and raises `ValueError` on
non-digit text. -/

/-- Handshake outcomes: a `StopIteration` from an exhausted stream, a parse
failure (`datastruct` or enum-adapter `ValueError`), the explicit
"Unsupported security type" error, and the explicit "Handshake failed"
error for a non-OK security result. -/
inductive HsErr where
  | streamEnd
  | parseError
  | unsupportedSecurity
  | handshakeFailed
  deriving DecidableEq, Repr

/-- The context fields populated by a successful handshake. -/
structure HsCtx where
  server_version : Nat × Nat
  client_version : Nat × Nat
  security : Nat
  shared_access : Bool
  fb_width : Nat
  fb_height : Nat
  fb_pix_fmt : PixelFormat
  name : List Nat
  deriving DecidableEq, Repr

/-- Is `b` the ASCII code of a decimal digit? -/
def isDigitByte (b : Nat) : Prop := 48 ≤ b ∧ b ≤ 57

instance (b : Nat) : Decidable (isDigitByte b) := by
  unfold isDigitByte; infer_instance

/-- Decimal value of a list of ASCII digit bytes (`int("...")`). -/
def decDigits (bs : List Nat) : Nat := bs.foldl (fun a b => a * 10 + (b - 48)) 0

/-- `ProtocolVersion.unpack`: the 12-byte banner `RFB xxx.yyy\n`; returns
`(major, minor)`. -/
def parseProtocolVersion (load : List Nat) : Except HsErr (Nat × Nat) :=
  match load with
  | s0 :: s1 :: s2 :: s3 :: a0 :: a1 :: a2 :: dot :: b0 :: b1 :: b2 :: nl :: _ =>
    if [s0, s1, s2, s3] = [0x52, 0x46, 0x42, 0x20] ∧ dot = 0x2E ∧ nl = 0x0A ∧
        (∀ x ∈ [a0, a1, a2, b0, b1, b2], isDigitByte x) then
      .ok (decDigits [a0, a1, a2], decDigits [b0, b1, b2])
    else .error .parseError
  | _ => .error .parseError

/-- `SupportedSecurityTypes.unpack`: a `u8` count, then that many `u8`
security-type codes. -/
def parseSupportedSecurityTypes (load : List Nat) : Except HsErr (List Nat) :=
  match load with
  | [] => .error .parseError
  | n :: rest =>
    if n ≤ rest.length then .ok (rest.take n) else .error .parseError

/-- Member values of `SecurityTypeVal` (`lib/struct/data_structures.py`). -/
def securityTypeVals : List Nat :=
  [0, 1, 2, 5, 6, 13, 16, 19, 20, 22, 30, 113, 129, 130, 133]

/-- `SelectedSecurityType.unpack`: a single `u8`, decoded through the
`SecurityTypeVal` enum adapter, which raises `ValueError` for a value that
is not a member. -/
def parseSelectedSecurityType (load : List Nat) : Except HsErr Nat :=
  match load with
  | [] => .error .parseError
  | b :: _ => if b ∈ securityTypeVals then .ok b else .error .parseError

/-- `VNCSecurityChallenge.unpack`: a 16-byte field. -/
def parseChallenge (load : List Nat) : Except HsErr (List Nat) :=
  if 16 ≤ load.length then .ok (load.take 16) else .error .parseError

/-- `SecurityResult.unpack`: a `u32`, decoded through the
`SecurityResultVal` enum adapter (members OK = 0 and FAILED = 1). -/
def parseSecurityResult (load : List Nat) : Except HsErr Nat :=
  if 4 ≤ load.length then
    if u32be load = 0 ∨ u32be load = 1 then .ok (u32be load)
    else .error .parseError
  else .error .parseError

/-- `ClientInit.unpack`: one boolean byte (non-zero is true). -/
def parseClientInit (load : List Nat) : Except HsErr Bool :=
  match load with
  | [] => .error .parseError
  | b :: _ => .ok (b ≠ 0)

/-- `PixelFormat.unpack`: the 16-byte pixel format. -/
def parsePixelFormat (load : List Nat) : Except HsErr PixelFormat :=
  match load with
  | bpp :: dep :: be :: tc :: r0 :: r1 :: g0 :: g1 :: bl0 :: bl1 ::
      rs :: gs :: bs :: _ =>
    .ok ⟨⟨bpp, dep, be ≠ 0, tc ≠ 0⟩, beNat [r0, r1], beNat [g0, g1],
      beNat [bl0, bl1], rs, gs, bs⟩
  | _ => .error .parseError

/-- `ServerInit.unpack`: u16 width, u16 height, 16-byte pixel format, then a
u32-length-prefixed name (kept as raw bytes; UTF-8 decoding is not
modelled). -/
def parseServerInit (load : List Nat) :
    Except HsErr (Nat × Nat × PixelFormat × List Nat) :=
  match load with
  | w0 :: w1 :: h0 :: h1 :: rest =>
    match parsePixelFormat rest with
    | .error e => .error e
    | .ok pf =>
      let rest := rest.drop 16
      if 4 ≤ rest.length ∧ u32be rest ≤ rest.length - 4 then
        .ok (beNat [w0, w1], beNat [h0, h1], pf, (rest.drop 4).take (u32be rest))
      else .error .parseError
  | _ => .error .parseError

/-- Take the next packet of a directional stream (`next_server` /
`next_client`); an exhausted stream raises `StopIteration`. -/
def popPacket : List (List Nat) → Except HsErr (List Nat × List (List Nat))
  | [] => .error .streamEnd
  | p :: rest => .ok (p, rest)

/-- `process_handshake` (`lib/rfb.py`): consume the protocol versions, the
server's security-type list, the client's selection, the optional VNC
challenge exchange, the security result, `ClientInit` and `ServerInit` from
the two directional packet streams, in the fixed order of the source.  No
version comparison is performed: the security phase is the same for every
negotiated version. -/
def process_handshake (srv cli : List (List Nat)) : Except HsErr HsCtx := do
  let (srv0, srvRest) ← popPacket srv
  let (cli0, cliRest) ← popPacket cli
  let server_version ← parseProtocolVersion srv0
  let client_version ← parseProtocolVersion cli0
  let (s1, srvRest) ← popPacket srvRest
  let _types ← parseSupportedSecurityTypes s1
  let (c1, cliRest) ← popPacket cliRest
  let security ← parseSelectedSecurityType c1
  let (srvRest, cliRest) ←
    if security = 1 then
      pure (srvRest, cliRest)
    else if security = 2 then do
      let (s2, srvRest) ← popPacket srvRest
      let _srvChallenge ← parseChallenge s2
      let (c2, cliRest) ← popPacket cliRest
      let _cliChallenge ← parseChallenge c2
      pure (srvRest, cliRest)
    else throw .unsupportedSecurity
  let (s3, srvRest) ← popPacket srvRest
  let result ← parseSecurityResult s3
  if result ≠ 0 then throw .handshakeFailed else pure ()
  let (c3, _) ← popPacket cliRest
  let shared ← parseClientInit c3
  let (s4, _) ← popPacket srvRest
  let (w, h, pf, name) ← parseServerInit s4
  pure ⟨server_version, client_version, security, shared, w, h, pf, name⟩

/-- Strict lexicographic comparison of `(major, minor)` version pairs
(Python tuple `<`). -/
def verLt (a b : Nat × Nat) : Bool :=
  a.1 < b.1 || (a.1 = b.1 && a.2 < b.2)

/-- `min` of two version pairs under `verLt` (Python `min` keeps the first
argument unless the second is strictly smaller). -/
def verMin (a b : Nat × Nat) : Nat × Nat := if verLt b a then b else a

/-- Modelled from the spec: a `u32` mandated security type, sent by the
server instead of a type list when the effective version is at most 3.3
(`ServerSecurityType` exists in the source but is never read by
`process_handshake`).  Decoded through the `SecurityTypeVal` enum
adapter. -/
def parseServerSecurityType (load : List Nat) : Except HsErr Nat :=
  if 4 ≤ load.length then
    if u32be load ∈ securityTypeVals then .ok (u32be load)
    else .error .parseError
  else .error .parseError

/-- Modelled from the spec (handshake design step 4, for comparison with
the source's `process_handshake`): after the version exchange the effective
version is `min(server, client)`; when it is greater than 3.3 the server
sends a u8-counted security-type list and the client a u8 selection, and
when it is at most 3.3 the server sends a single u32 mandated security
type and no client selection is read.  The remaining steps are those of
the source. -/
def process_handshake_per_spec (srv cli : List (List Nat)) :
    Except HsErr HsCtx := do
  let (srv0, srvRest) ← popPacket srv
  let (cli0, cliRest) ← popPacket cli
  let server_version ← parseProtocolVersion srv0
  let client_version ← parseProtocolVersion cli0
  let effective := verMin server_version client_version
  let (security, srvRest, cliRest) ←
    if verLt (3, 3) effective then do
      let (s1, srvRest) ← popPacket srvRest
      let _types ← parseSupportedSecurityTypes s1
      let (c1, cliRest) ← popPacket cliRest
      let security ← parseSelectedSecurityType c1
      pure (security, srvRest, cliRest)
    else do
      let (s1, srvRest) ← popPacket srvRest
      let security ← parseServerSecurityType s1
      pure (security, srvRest, cliRest)
  let (srvRest, cliRest) ←
    if security = 1 then
      pure (srvRest, cliRest)
    else if security = 2 then do
      let (s2, srvRest) ← popPacket srvRest
      let _srvChallenge ← parseChallenge s2
      let (c2, cliRest) ← popPacket cliRest
      let _cliChallenge ← parseChallenge c2
      pure (srvRest, cliRest)
    else throw .unsupportedSecurity
  let (s3, srvRest) ← popPacket srvRest
  let result ← parseSecurityResult s3
  if result ≠ 0 then throw .handshakeFailed else pure ()
  let (c3, _) ← popPacket cliRest
  let shared ← parseClientInit c3
  let (s4, _) ← popPacket srvRest
  let (w, h, pf, name) ← parseServerInit s4
  pure ⟨server_version, client_version, security, shared, w, h, pf, name⟩

/-! ## Concrete values used by the theorems below -/

/-- 8-bpp true-colour pixel format (compact pixel size 1). -/
def pf8 : BasicPixelFormat := ⟨8, 8, false, true⟩

/-- 32-bpp depth-24 true-colour basic format (compact pixel size 3). -/
def pf24 : BasicPixelFormat := ⟨32, 24, false, true⟩

/-- The identity pixel format of the spec with the big-endian flag clear:
32 bpp, depth 24, channel maxes 0xFF, shifts 16/8/0. -/
def idPixelFormatLE : PixelFormat :=
  ⟨⟨32, 24, false, true⟩, 255, 255, 255, 16, 8, 0⟩

/-- The identity pixel format with the big-endian flag set. -/
def idPixelFormatBE : PixelFormat :=
  ⟨⟨32, 24, true, true⟩, 255, 255, 255, 16, 8, 0⟩

/-- A 2×2 framebuffer in the little-endian identity format. -/
def fb2x2 : Framebuffer :=
  ⟨2, 2, idPixelFormatLE, none, List.replicate 4 (0, 0, 0, 0)⟩

/-- The 12-byte version banner `RFB 003.008\n`. -/
def ver38 : List Nat :=
  [0x52, 0x46, 0x42, 0x20, 48, 48, 51, 0x2E, 48, 48, 56, 0x0A]

/-- The 12-byte version banner `RFB 003.003\n`. -/
def ver33 : List Nat :=
  [0x52, 0x46, 0x42, 0x20, 48, 48, 51, 0x2E, 48, 48, 51, 0x0A]

/-- A version banner with given major and minor digit bytes. -/
def mkVer (maj min : List Nat) : List Nat :=
  [0x52, 0x46, 0x42, 0x20] ++ maj ++ [0x2E] ++ min ++ [0x0A]

/-- A 16-byte encoding of the little-endian identity pixel format. -/
def pf16Bytes : List Nat :=
  [32, 24, 0, 1, 0, 255, 0, 255, 0, 255, 16, 8, 0, 0, 0, 0]

/-- A `ServerInit` load: 1×1 framebuffer, identity pixel format, empty
name. -/
def serverInitLoad : List Nat := [0, 1, 0, 1] ++ pf16Bytes ++ [0, 0, 0, 0]

/-! ## Theorems -/

theorem get_rle_length_aux_some {pre : List Nat} :
    ∀ {len b rest}, (∀ x ∈ pre, ¬x < 0xFF) → b < 0xFF →
      get_rle_length_aux len (pre ++ b :: rest) =
        some (len + pre.sum + b, rest) := by
  induction pre with
  | nil => intro len b rest _ hb; simp [get_rle_length_aux, hb]
  | cons p ps ih =>
    intro len b rest hpre hb
    have hp : ¬p < 0xFF := hpre p (by simp)
    simp only [List.cons_append, get_rle_length_aux, if_neg hp, List.append_eq]
    rw [ih (fun x hx => hpre x (by simp [hx])) hb]
    simp [List.sum_cons]; ring_nf

theorem get_rle_length_aux_none :
    ∀ {data : List Nat} {len},
      get_rle_length_aux len data = none ↔ ∀ x ∈ data, ¬x < 0xFF := by
  intro data
  induction data with
  | nil => simp [get_rle_length_aux]
  | cons b rest ih =>
    intro len
    by_cases hb : b < 0xFF
    · simp [get_rle_length_aux, hb]
    · simp only [get_rle_length_aux, if_neg hb, ih, List.mem_cons]
      constructor
      · intro h
        rintro x (rfl | hx)
        · omega
        · exact h x hx
      · intro h x hx; exact h x (Or.inr hx)

theorem clampTo_length (total_size : Nat) (l : List Nat) :
    (clampTo total_size l).length = total_size := by
  unfold clampTo
  split <;> simp <;> omega

/-- Helper: a result obtained through the final clamp of `decode_zrle_tile`
has exactly the clamped length. -/
theorem map_clampTo_ok {e : Except PyErr (List Nat × List Nat)} {t : Nat}
    {out rest : List Nat}
    (h : e.map (fun r => (clampTo t r.1, r.2)) = .ok (out, rest)) :
    out.length = t := by
  cases e with
  | error e => simp [Except.map] at h
  | ok r =>
    simp only [Except.map, Except.ok.injEq, Prod.mk.injEq] at h
    rw [← h.1]
    exact clampTo_length _ _

/-- C1: the claim says a RAW rectangle consumes
`rect.width * rect.height * bytes_per_pixel` bytes for every rectangle; the
source's `FramebufferUpdateRaw` instead sizes its `pixdata` field with
`get_frame_size_bytes`, the full-framebuffer byte count.  On a 2×2
framebuffer at 32 bpp with a 1×1 rectangle the source consumes 16 bytes
where the claim prescribes 4. -/
theorem c1_raw_rect_reads_full_frame :
    get_frame_size_bytes fb2x2 none = 16 ∧
    rawRectBytesSpec ⟨0, 0, 1, 1⟩ idPixelFormatLE = 4 ∧
    (framebufferUpdateRaw_unpack fb2x2 none (List.range 20)).1.length = 16 ∧
    (16 : Nat) ≠ 4 :=
  ⟨rfl, rfl, rfl, by decide⟩

/-- C2: the claim says `decode_zrle` decodes every tile of every tile row;
in the source `tile_x` is never reset at the start of a tile row, so only
the first tile row is ever decoded.  For a 1×65 ZRLE rectangle (one-byte
pixels) whose inflated data holds two solid tiles — value 7 for the tile at
(0, 0) and value 9 for the tile at (0, 64) — the source fills rows 0–63
with 7, never reads the second tile, and leaves row 64 at 0. -/
theorem c2_zrle_second_tile_row_skipped :
    decode_zrle [1, 7, 1, 9] (1, 65) pf8 =
      .ok (List.replicate 64 7 ++ [0]) := by
  set_option maxRecDepth 4000 in rfl

/-- C3 counterexample: the claim says `decode_zrle_tile` terminates without
raising for arbitrary input, including out-of-range palette indices; a
palette-RLE tile (sub-encoding 130, palette size 2) whose index byte is 5
raises an uncaught `IndexError` in the source
(`palette[palette_idx]` with `palette_idx = 5`). -/
theorem c3_counterexample_palette_index :
    decode_zrle_tile [130, 3, 4, 5] (1, 1) pf8 = .error .indexError := by
  rfl

/-- C3 (amended): whenever `decode_zrle_tile` returns without raising, the
decoded tile is exactly `tw * th * cpixel_size` bytes, a short decode being
zero-padded and a long one truncated. -/
theorem c3_amended_tile_length (data : List Nat) (size : Nat × Nat)
    (pf : BasicPixelFormat) (out rest : List Nat)
    (h : decode_zrle_tile data size pf = .ok (out, rest)) :
    out.length = size.1 * size.2 * pf.cpixel_size := by
  cases data with
  | nil =>
    simp only [decode_zrle_tile, Except.ok.injEq, Prod.mk.injEq] at h
    rw [← h.1]
    simp
  | cons sub d =>
    exact map_clampTo_ok h

/-- C3 witness: the 2×2 solid tile of the spec's scenario 5 decodes to the
stated 12 bytes. -/
theorem c3_amended_tile_length_witness :
    ([0xAA, 0xBB, 0xCC, 0xAA, 0xBB, 0xCC, 0xAA, 0xBB, 0xCC,
      0xAA, 0xBB, 0xCC] : List Nat).length =
      ((2, 2) : Nat × Nat).1 * ((2, 2) : Nat × Nat).2 * pf24.cpixel_size :=
  c3_amended_tile_length [1, 0xAA, 0xBB, 0xCC] (2, 2) pf24 _ [] rfl

/-- C8: `get_rle_length` returns 1 plus the sum of the leading bytes up to
and including the first byte below `0xFF` together with the rest of the
input, and fails exactly when the input ends before such a byte. -/
theorem c8_get_rle_length_spec (data pre rest : List Nat) (b : Nat) :
    ((∀ x ∈ pre, ¬x < 0xFF) → b < 0xFF →
      get_rle_length (pre ++ b :: rest) = some (1 + (pre.sum + b), rest)) ∧
    (get_rle_length data = none ↔ ∀ x ∈ data, ¬x < 0xFF) := by
  constructor
  · intro hpre hb
    unfold get_rle_length
    rw [get_rle_length_aux_some hpre hb, Nat.add_assoc]
  · exact get_rle_length_aux_none

/-- C8 witness: a 0xFF byte adds 255 and continues; the next byte 3 ends the
run with length 1 + 255 + 3. -/
theorem c8_get_rle_length_spec_witness :
    get_rle_length ([0xFF] ++ 3 :: [9]) = some (1 + (([0xFF] : List Nat).sum + 3), [9]) :=
  (c8_get_rle_length_spec [] [0xFF] [9] 3).1 (by decide) (by decide)

/-- C4 counterexample: the claim says the handshake computes the effective
version as `min(server, client)` and, at 3.3 or below, reads a single u32
mandated security type from the server with no client selection; the
source performs no version comparison and always reads a u8-counted list
plus a client selection.  On a valid 3.3 trace laid out as the claim
describes, the source fails with `StopIteration` while the claimed
behaviour completes the handshake. -/
theorem c4_counterexample_no_33_branch :
    process_handshake [ver33, [0, 0, 0, 1], [0, 0, 0, 0], serverInitLoad]
        [ver33, [1]] = .error .streamEnd ∧
    process_handshake_per_spec [ver33, [0, 0, 0, 1], [0, 0, 0, 0], serverInitLoad]
        [ver33, [1]] = .ok ⟨(3, 3), (3, 3), 1, true, 1, 1, idPixelFormatLE, []⟩ :=
  ⟨rfl, rfl⟩

/-- C4 (amended): the handshake driver computes no effective version and
never branches on it: for every pair of valid version banners — including
3.3 — the security exchange is the u8-counted list plus u8 client
selection, and the result does not depend on the versions beyond recording
them. -/
theorem c4_amended_no_version_branch (v1 v2 : List Nat) (sv cv : Nat × Nat)
    (h1 : parseProtocolVersion v1 = .ok sv)
    (h2 : parseProtocolVersion v2 = .ok cv) :
    process_handshake [v1, [1, 1], [0, 0, 0, 0], serverInitLoad]
      [v2, [1], [1]] =
      .ok ⟨sv, cv, 1, true, 1, 1, idPixelFormatLE, []⟩ := by
  simp [process_handshake, popPacket, h1, h2, bind, Except.bind]
  rfl

/-- C4 witness: the amended theorem applied to two 3.3 banners. -/
theorem c4_amended_witness :
    process_handshake [ver33, [1, 1], [0, 0, 0, 0], serverInitLoad]
      [ver33, [1], [1]] =
      .ok ⟨(3, 3), (3, 3), 1, true, 1, 1, idPixelFormatLE, []⟩ :=
  c4_amended_no_version_branch ver33 ver33 (3, 3) (3, 3) rfl rfl

/-- C7: in the security phase, VNC_AUTHENTICATION (2) consumes a 16-byte
server challenge and a 16-byte client response and the handshake proceeds;
NONE (1) skips the challenge exchange; any other selected type aborts with
an error; and a security result other than OK (0) aborts with an error. -/
theorem c7_security_phase :
    (∀ ch1 ch2 : List Nat, ch1.length = 16 → ch2.length = 16 →
      process_handshake [ver38, [1, 2], ch1, [0, 0, 0, 0], serverInitLoad]
        [ver38, [2], ch2, [1]] =
        .ok ⟨(3, 8), (3, 8), 2, true, 1, 1, idPixelFormatLE, []⟩) ∧
    (process_handshake [ver38, [1, 1], [0, 0, 0, 0], serverInitLoad]
        [ver38, [1], [1]] =
        .ok ⟨(3, 8), (3, 8), 1, true, 1, 1, idPixelFormatLE, []⟩) ∧
    (∀ t : Nat, t ≠ 1 → t ≠ 2 →
      ∃ e, process_handshake [ver38, [1, t], [0, 0, 0, 0], serverInitLoad]
        [ver38, [t], [1]] = .error e) ∧
    (∀ res : List Nat, res.length = 4 → u32be res ≠ 0 →
      ∃ e, process_handshake [ver38, [1, 1], res, serverInitLoad]
        [ver38, [1], [1]] = .error e) := by
  refine ⟨?_, ?_, ?_, ?_⟩
  · intro ch1 ch2 hc1 hc2
    simp [process_handshake, popPacket, bind, Except.bind, parseChallenge, hc1, hc2]
    rfl
  · rfl
  · intro t ht1 ht2
    by_cases hmem : t ∈ securityTypeVals
    · refine ⟨.unsupportedSecurity, ?_⟩
      simp only [process_handshake, popPacket, bind, Except.bind, pure, Except.pure]
      simp +decide [parseProtocolVersion, ver38, parseSupportedSecurityTypes,
        parseSelectedSecurityType, parseChallenge, hmem, ht1, ht2]
    · refine ⟨.parseError, ?_⟩
      simp only [process_handshake, popPacket, bind, Except.bind, pure, Except.pure]
      simp +decide [parseProtocolVersion, ver38, parseSupportedSecurityTypes,
        parseSelectedSecurityType, hmem]
  · intro res hlen hval
    by_cases h1 : u32be res = 1
    · refine ⟨.handshakeFailed, ?_⟩
      simp only [process_handshake, popPacket, bind, Except.bind, pure, Except.pure]
      simp +decide [parseProtocolVersion, ver38, parseSupportedSecurityTypes,
        parseSelectedSecurityType, parseSecurityResult, hlen, h1]
    · refine ⟨.parseError, ?_⟩
      simp only [process_handshake, popPacket, bind, Except.bind, pure, Except.pure]
      simp +decide [parseProtocolVersion, ver38, parseSupportedSecurityTypes,
        parseSelectedSecurityType, parseSecurityResult, hlen, h1, hval]

/-- C7 witness: the VNC_AUTHENTICATION part applied to concrete 16-byte
challenges. -/
theorem c7_witness :
    process_handshake [ver38, [1, 2], List.replicate 16 9, [0, 0, 0, 0], serverInitLoad]
      [ver38, [2], List.replicate 16 8, [1]] =
      .ok ⟨(3, 8), (3, 8), 2, true, 1, 1, idPixelFormatLE, []⟩ :=
  c7_security_phase.1 (List.replicate 16 9) (List.replicate 16 8) (by simp) (by simp)

/-- Helper: every packet delivered by the merger came from one of the two
directional streams. -/
theorem runMerge_mem : ∀ (fuel : Nat) (st : MergedState) (x : PacketOrigin × Pkt),
    x ∈ runMerge fuel st → x.2 ∈ st.cli ∨ x.2 ∈ st.srv := by
  intro fuel
  induction fuel with
  | zero => intro st x hx; simp [runMerge] at hx
  | succ n ih =>
    rintro ⟨cli, srv⟩ x hx
    match cli, srv with
    | [], [] => simp [runMerge, mergedNext] at hx
    | [], s :: ss =>
      simp only [runMerge, mergedNext, List.mem_cons] at hx
      rcases hx with rfl | hx
      · simp
      · rcases ih ⟨[], ss⟩ x hx with h | h
        · simp at h
        · right; simp [List.mem_cons]; right; exact h
    | c :: cs, [] =>
      simp only [runMerge, mergedNext, List.mem_cons] at hx
      rcases hx with rfl | hx
      · simp
      · rcases ih ⟨cs, []⟩ x hx with h | h
        · left; simp [List.mem_cons]; right; exact h
        · simp at h
    | c :: cs, s :: ss =>
      by_cases hlt : c.time < s.time
      · simp only [runMerge, mergedNext, hlt, if_true, ite_true, List.mem_cons] at hx
        rcases hx with rfl | hx
        · simp
        · rcases ih ⟨cs, s :: ss⟩ x hx with h | h
          · left; simp [List.mem_cons]; right; exact h
          · right; exact h
      · simp only [runMerge, mergedNext, hlt, if_false, ite_false, List.mem_cons] at hx
        rcases hx with rfl | hx
        · simp
        · rcases ih ⟨c :: cs, ss⟩ x hx with h | h
          · left; exact h
          · right; simp [List.mem_cons]; right; exact h

/-- Helper: merging two streams with non-decreasing timestamps delivers
packets with non-decreasing timestamps. -/
theorem runMerge_sorted : ∀ (fuel : Nat) (cli srv : List Pkt),
    cli.Pairwise (fun p q => p.time ≤ q.time) →
    srv.Pairwise (fun p q => p.time ≤ q.time) →
    (runMerge fuel ⟨cli, srv⟩).Pairwise (fun a b => a.2.time ≤ b.2.time) := by
  intro fuel
  induction fuel with
  | zero => intro cli srv _ _; simp [runMerge]
  | succ n ih =>
    intro cli srv hc hs
    match cli, srv with
    | [], [] => simp [runMerge, mergedNext]
    | [], s :: ss =>
      rw [List.pairwise_cons] at hs
      simp only [runMerge, mergedNext, List.pairwise_cons]
      refine ⟨?_, ih [] ss (by simp) hs.2⟩
      intro y hy
      rcases runMerge_mem n ⟨[], ss⟩ y hy with h | h
      · simp at h
      · exact hs.1 y.2 h
    | c :: cs, [] =>
      rw [List.pairwise_cons] at hc
      simp only [runMerge, mergedNext, List.pairwise_cons]
      refine ⟨?_, ih cs [] hc.2 (by simp)⟩
      intro y hy
      rcases runMerge_mem n ⟨cs, []⟩ y hy with h | h
      · exact hc.1 y.2 h
      · simp at h
    | c :: cs, s :: ss =>
      rw [List.pairwise_cons] at hc hs
      by_cases hlt : c.time < s.time
      · simp only [runMerge, mergedNext, hlt, if_true, ite_true, List.pairwise_cons]
        refine ⟨?_, ih cs (s :: ss) hc.2 (List.pairwise_cons.mpr hs)⟩
        intro y hy
        rcases runMerge_mem n ⟨cs, s :: ss⟩ y hy with h | h
        · exact hc.1 y.2 h
        · rcases List.mem_cons.mp h with rfl | h
          · exact le_of_lt hlt
          · exact le_trans (le_of_lt hlt) (hs.1 y.2 h)
      · simp only [runMerge, mergedNext, hlt, if_false, ite_false, List.pairwise_cons]
        have hsc : s.time ≤ c.time := le_of_not_lt hlt
        refine ⟨?_, ih (c :: cs) ss (List.pairwise_cons.mpr hc) hs.2⟩
        intro y hy
        rcases runMerge_mem n ⟨c :: cs, ss⟩ y hy with h | h
        · rcases List.mem_cons.mp h with rfl | h
          · exact hsc
          · exact le_trans hsc (hc.1 y.2 h)
        · exact hs.1 y.2 h

/-- Helper: with the server side exhausted, the merger drains the client
side in order. -/
theorem runMerge_drain_cli : ∀ (fuel : Nat) (cli : List Pkt), cli.length ≤ fuel →
    runMerge fuel ⟨cli, []⟩ = cli.map (fun p => (PacketOrigin.CLIENT, p)) := by
  intro fuel
  induction fuel with
  | zero =>
    intro cli h
    rw [Nat.le_zero, List.length_eq_zero] at h
    subst h
    simp [runMerge]
  | succ n ih =>
    intro cli h
    match cli with
    | [] => simp [runMerge, mergedNext]
    | c :: cs =>
      simp only [runMerge, mergedNext, List.map_cons]
      rw [ih cs (by simp at h; omega)]

/-- Helper: with the client side exhausted, the merger drains the server
side in order. -/
theorem runMerge_drain_srv : ∀ (fuel : Nat) (srv : List Pkt), srv.length ≤ fuel →
    runMerge fuel ⟨[], srv⟩ = srv.map (fun p => (PacketOrigin.SERVER, p)) := by
  intro fuel
  induction fuel with
  | zero =>
    intro srv h
    rw [Nat.le_zero, List.length_eq_zero] at h
    subst h
    simp [runMerge]
  | succ n ih =>
    intro srv h
    match srv with
    | [] => simp [runMerge, mergedNext]
    | s :: ss =>
      simp only [runMerge, mergedNext, List.map_cons]
      rw [ih ss (by simp at h; omega)]

/-- C5: for directional streams with non-decreasing timestamps: with both
sides pending, `__next__` delivers the packet with the smaller next
timestamp (a tie deterministically goes to the server), so delivered
timestamps are non-decreasing; with exactly one side pending that side is
drained; and `next_packet_origin` is `none` exactly when both sides are
exhausted. -/
theorem c5_merger_invariants (cli srv : List Pkt)
    (hc : cli.Pairwise (fun p q => p.time ≤ q.time))
    (hs : srv.Pairwise (fun p q => p.time ≤ q.time)) :
    (∀ c cs s ss, cli = c :: cs → srv = s :: ss →
      mergedNext ⟨cli, srv⟩ =
        some (if c.time < s.time then ((.CLIENT, c), ⟨cs, srv⟩)
              else ((.SERVER, s), ⟨cli, ss⟩))) ∧
    (mergeAll ⟨cli, srv⟩).Pairwise (fun a b => a.2.time ≤ b.2.time) ∧
    mergeAll ⟨cli, []⟩ = cli.map (fun p => (PacketOrigin.CLIENT, p)) ∧
    mergeAll ⟨[], srv⟩ = srv.map (fun p => (PacketOrigin.SERVER, p)) ∧
    (next_packet_origin ⟨cli, srv⟩ = none ↔ cli = [] ∧ srv = []) := by
  refine ⟨?_, ?_, ?_, ?_, ?_⟩
  · rintro c cs s ss rfl rfl
    by_cases hlt : c.time < s.time <;> simp [mergedNext, hlt]
  · exact runMerge_sorted _ cli srv hc hs
  · exact runMerge_drain_cli _ cli (by simp [mergeAll])
  · exact runMerge_drain_srv _ srv (by simp [mergeAll])
  · match cli, srv with
    | [], [] => simp [next_packet_origin]
    | [], s :: ss => simp [next_packet_origin]
    | c :: cs, [] => simp [next_packet_origin]
    | c :: cs, s :: ss => simp [next_packet_origin]

/-- C5 witness: the merger invariants applied to a concrete three-packet
state. -/
theorem c5_witness :
    (mergeAll ⟨[⟨1, 0⟩, ⟨3, 1⟩], [⟨2, 2⟩]⟩).Pairwise
      (fun a b => a.2.time ≤ b.2.time) :=
  (c5_merger_invariants [⟨1, 0⟩, ⟨3, 1⟩] [⟨2, 2⟩] (by decide) (by decide)).2.1

/-- C6 counterexample: the claim says `next_packet_origin` always matches
the origin `__next__` would deliver, including on equal timestamps; with
both next packets at time 5, `next_packet_origin` reports CLIENT
(`srv_time < cli_time` is false) while `__next__` delivers from the server
(`next_cli.time < next_srv.time` is false). -/
theorem c6_counterexample_tie :
    next_packet_origin ⟨[⟨5, 0⟩], [⟨5, 1⟩]⟩ = some .CLIENT ∧
    (mergedNext ⟨[⟨5, 0⟩], [⟨5, 1⟩]⟩).map (fun d => d.1.1) = some .SERVER ∧
    PacketOrigin.CLIENT ≠ PacketOrigin.SERVER :=
  ⟨rfl, rfl, by decide⟩

/-- C6 (amended): when at least one side is pending and the two next
timestamps are not equal (or only one side is pending),
`next_packet_origin` equals the origin `__next__` delivers; when both next
timestamps are equal the two disagree: `next_packet_origin` reports CLIENT
while `__next__` delivers the server packet. -/
theorem c6_amended_origin_agreement (cli srv : List Pkt) :
    (∀ c s, cli.head? = some c → srv.head? = some s → c.time = s.time →
      next_packet_origin ⟨cli, srv⟩ = some .CLIENT ∧
      (mergedNext ⟨cli, srv⟩).map (fun d => d.1.1) = some .SERVER) ∧
    ((∀ c s, cli.head? = some c → srv.head? = some s → c.time ≠ s.time) →
      (mergedNext ⟨cli, srv⟩).map (fun d => d.1.1) = next_packet_origin ⟨cli, srv⟩) := by
  constructor
  · intro c s hc hs heq
    match cli, srv with
    | c' :: cs, s' :: ss =>
      simp only [List.head?_cons, Option.some.injEq] at hc hs
      have heq' : c'.time = s'.time := by rw [hc, hs, heq]
      have h1 : ¬c'.time < s'.time := by omega
      have h2 : ¬s'.time < c'.time := by omega
      constructor
      · simp [next_packet_origin, h2]
      · simp [mergedNext, h1]
  · intro hne
    match cli, srv with
    | [], [] => rfl
    | [], s :: ss => rfl
    | c :: cs, [] => rfl
    | c :: cs, s :: ss =>
      have hne' : c.time ≠ s.time := hne c s rfl rfl
      rcases lt_trichotomy c.time s.time with hlt | heq | hgt
      · have h2 : ¬s.time < c.time := by omega
        simp [mergedNext, next_packet_origin, hlt, h2]
      · exact absurd heq hne'
      · have h1 : ¬c.time < s.time := by omega
        simp [mergedNext, next_packet_origin, hgt, h1]

/-- C6 witness: origin agreement on a concrete tie-free state. -/
theorem c6_amended_witness :
    (mergedNext ⟨[⟨1, 0⟩], [⟨2, 1⟩]⟩).map (fun d => d.1.1) =
      next_packet_origin ⟨[⟨1, 0⟩], [⟨2, 1⟩]⟩ :=
  (c6_amended_origin_agreement [⟨1, 0⟩] [⟨2, 1⟩]).2 (by
    intro c s hc hs
    simp only [List.head?_cons, Option.some.injEq] at hc hs
    subst hc; subst hs
    decide)

/-- Helper: the pixel loop on empty data yields no bytes. -/
theorem decodePixelLoop_nil (pf : PixelFormat) (fuel : Nat) :
    decodePixelLoop pf fuel [] = .ok [] := by
  cases fuel <;> simp [decodePixelLoop]

/-- Helper: bitwise and with 255 is reduction modulo 256. -/
theorem land_255_eq_mod (x : Nat) : x &&& 255 = x % 256 := by
  have h := Nat.and_pow_two_sub_one_eq_mod x 8
  norm_num at h
  exact h

/-- Helper: on at most one pixel (up to 4 bytes), conversion under the
big-endian identity format produces the three channel bytes of the
big-endian value. -/
theorem decode_be_single (d : List Nat) (hne : d ≠ []) (hlen : d.length ≤ 4) :
    decode_pixel_data idPixelFormatBE d =
      .ok [beNat d >>> 16 &&& 255, beNat d >>> 8 &&& 255, beNat d &&& 255] := by
  match d with
  | a :: as =>
    obtain ⟨m, hm⟩ : ∃ m, (a :: as).length = m + 1 := ⟨as.length, by simp⟩
    unfold decode_pixel_data
    rw [hm]
    simp only [decodePixelLoop, idPixelFormatBE]
    norm_num [BasicPixelFormat.bytes_per_pixel]
    rw [List.take_of_length_le (by simpa using hlen),
      List.drop_eq_nil_of_le (by simpa using hlen), decodePixelLoop_nil]
    simp [Except.map, intFromBytes, Nat.shiftRight_zero,
      Nat.mul_div_cancel _ (by norm_num : (0:Nat) < 255)]

/-- Helper: a three-byte RGB triple is a fixed point of the conversion
under the big-endian identity format. -/
theorem decode_be_roundtrip (r g b : Nat) (hr : r ≤ 255) (hg : g ≤ 255)
    (hb : b ≤ 255) :
    decode_pixel_data idPixelFormatBE [r, g, b] = .ok [r, g, b] := by
  rw [decode_be_single [r, g, b] (by simp) (by simp)]
  have hbe : beNat [r, g, b] = (r * 256 + g) * 256 + b := by
    simp [beNat]
  rw [hbe]
  congr 1
  rw [Nat.shiftRight_eq_div_pow, Nat.shiftRight_eq_div_pow,
    land_255_eq_mod, land_255_eq_mod, land_255_eq_mod]
  norm_num
  omega

/-- C9 (amended): pixel-to-RGB conversion under the identity PixelFormat is
idempotent only in the restricted case of the big-endian flag with at most
one pixel of input (at most 4 bytes); the counterexample shows it fails for
the little-endian identity format on a single pixel and for the big-endian
identity format on two pixels. -/
theorem c9_amended_be_single_pixel (x : List Nat) (h : x.length ≤ 4) :
    (decode_pixel_data idPixelFormatBE x).bind (decode_pixel_data idPixelFormatBE) =
      decode_pixel_data idPixelFormatBE x := by
  by_cases hx : x = []
  · subst hx; rfl
  · rw [decode_be_single x hx h]
    show decode_pixel_data idPixelFormatBE _ = _
    exact decode_be_roundtrip _ _ _
      (by rw [land_255_eq_mod]; omega)
      (by rw [land_255_eq_mod]; omega)
      (by rw [land_255_eq_mod]; omega)

/-- C9 witness: idempotence on one concrete big-endian pixel. -/
theorem c9_witness :
    (decode_pixel_data idPixelFormatBE [9, 8, 7, 6]).bind
        (decode_pixel_data idPixelFormatBE) =
      decode_pixel_data idPixelFormatBE [9, 8, 7, 6] :=
  c9_amended_be_single_pixel [9, 8, 7, 6] (by simp)

/-- C9 counterexample: the claim says conversion under the identity
PixelFormat is idempotent; converting `[1, 2, 3, 4]` twice under the
little-endian identity format gives `[1, 2, 3]` while once gives
`[3, 2, 1]`, and converting two big-endian pixels twice gives
`[3, 4, 6, 0, 7, 8]` while once gives `[2, 3, 4, 6, 7, 8]`. -/
theorem c9_counterexample_not_idempotent :
    (decode_pixel_data idPixelFormatLE [1, 2, 3, 4]).bind
        (decode_pixel_data idPixelFormatLE) ≠
      decode_pixel_data idPixelFormatLE [1, 2, 3, 4] ∧
    (decode_pixel_data idPixelFormatBE [1, 2, 3, 4, 5, 6, 7, 8]).bind
        (decode_pixel_data idPixelFormatBE) ≠
      decode_pixel_data idPixelFormatBE [1, 2, 3, 4, 5, 6, 7, 8] := by
  constructor
  · show (Except.ok [1, 2, 3] : Except PyErr (List Nat)) ≠ Except.ok [3, 2, 1]
    simp
  · show (Except.ok [3, 4, 6, 0, 7, 8] : Except PyErr (List Nat)) ≠
      Except.ok [2, 3, 4, 6, 7, 8]
    simp

/-- C10: `update_cursor_position` stores the event's cursor status
(creating it on the first event) and hands it to the registered callback;
an in-range `(x, y)` sets the cursor-path pixel at `y * width + x` to red,
an out-of-range one leaves the cursor-path image unchanged without raising,
and the framebuffer's other fields are untouched either way. -/
theorem c10_update_cursor_position (fb : Framebuffer) (ev : PointerEvent) :
    (update_cursor_position fb ev).1.cursor = some ⟨ev.button_mask, ev.x, ev.y⟩ ∧
    (update_cursor_position fb ev).2 = ⟨ev.button_mask, ev.x, ev.y⟩ ∧
    (ev.x < fb.width ∧ ev.y < fb.height →
      (update_cursor_position fb ev).1.cursor_path_img =
        fb.cursor_path_img.set (ev.y * fb.width + ev.x) (255, 0, 0, 255)) ∧
    (¬(ev.x < fb.width ∧ ev.y < fb.height) →
      (update_cursor_position fb ev).1.cursor_path_img = fb.cursor_path_img) ∧
    (update_cursor_position fb ev).1.width = fb.width ∧
    (update_cursor_position fb ev).1.height = fb.height ∧
    (update_cursor_position fb ev).1.pix_fmt = fb.pix_fmt := by
  by_cases hin : ev.x < fb.width ∧ ev.y < fb.height <;>
    cases hcur : fb.cursor <;>
      simp [update_cursor_position, putpixel, hin, hcur]

/-- C10 witness: an out-of-range pointer event on a 4×4 framebuffer leaves
the cursor-path image unchanged. -/
theorem c10_witness :
    (update_cursor_position
        ⟨4, 4, idPixelFormatLE, none, List.replicate 16 (0, 0, 0, 0)⟩
        ⟨1, 3, 5⟩).1.cursor_path_img =
      (⟨4, 4, idPixelFormatLE, none,
        List.replicate 16 (0, 0, 0, 0)⟩ : Framebuffer).cursor_path_img :=
  (c10_update_cursor_position _ _).2.2.2.1 (by decide)
